import Mathlib

/-!
# Tambo Lens — guarded query gateway: shallow embedding and verification

This file embeds the core of the Tambo Lens guarded query gateway
(`src/apps/src/lib/db.ts` (query-guardrails part), `query-service.ts`,
`anomaly-service.ts`) into Lean 4 and proves/refutes the frozen claims
about it.

Modelling conventions:
* JavaScript strings are modelled as `List Char` (`JStr`).  The queries and
  identifiers involved are plain ASCII, so code-unit vs code-point issues do
  not arise.
* `new RegExp("\\b" ++ w ++ "\\b", "i")` applied to a metacharacter-free
  word `w` is modelled by `testWordRegex`, which implements the JS `\b`
  word-boundary semantics literally (a boundary lies between a word
  character `[A-Za-z0-9_]` and a non-word character or string edge).
* Mutable accumulation of `errors`/`warnings` arrays becomes list
  concatenation of the per-check error lists, in the source order.
* Numbers flowing through the anomaly heuristics are modelled as `ℚ`;
  `Math.round` is `⌊x + 1/2⌋`.
-/

namespace TamboLens

/-- A JavaScript string, modelled as its list of characters. -/
abbrev JStr := List Char

/-- JS `\w` character class: `[A-Za-z0-9_]`. -/
def isWordChar (c : Char) : Bool := c.isAlphanum || c = '_'

/-- JS `\s` (whitespace) class, restricted to the usual ASCII whitespace. -/
def jsIsWs (c : Char) : Bool := c.isWhitespace

/-- JS `String.prototype.trim`. -/
def jsTrim (l : JStr) : JStr :=
  ((l.dropWhile jsIsWs).reverse.dropWhile jsIsWs).reverse

/-- JS `String.prototype.toUpperCase` (ASCII). -/
def jsToUpper (l : JStr) : JStr := l.map Char.toUpper

/-- Character at an index, if in range. -/
def charAt? (l : JStr) (i : Nat) : Option Char := (l.drop i).head?

/-- Character just before an index, if any. -/
def prevChar? (l : JStr) : Nat → Option Char
  | 0 => none
  | i + 1 => charAt? l i

/-- Does an `Option Char` hold a word character? (A missing character,
i.e. the edge of the string, counts as a non-word character.) -/
def optWordChar : Option Char → Bool
  | some c => isWordChar c
  | none => false

/-- JS `\b` holds at position `i` of `l` iff exactly one of the characters
on either side of the position is a word character. -/
def boundaryAt (l : JStr) (i : Nat) : Bool :=
  optWordChar (prevChar? l i) != optWordChar (charAt? l i)

/-- Case-insensitive `isPrefixOf` (models the regex `i` flag on ASCII). -/
def ciPrefixOf : JStr → JStr → Bool
  | [], _ => true
  | _ :: _, [] => false
  | p :: ps, t :: ts => (p.toUpper == t.toUpper) && ciPrefixOf ps ts

/-- `new RegExp("\\b" ++ pat ++ "\\b", "i").test l` for a metacharacter-free
pattern `pat`: a case-insensitive occurrence of `pat` in `l` flanked by JS
word boundaries. -/
def wordMatchAt (pat l : JStr) (i : Nat) : Bool :=
  boundaryAt l i && ciPrefixOf pat (l.drop i) && boundaryAt l (i + pat.length)

/-- Whole-word, case-insensitive occurrence test (`\b...\b` with flag `i`). -/
def testWordRegex (pat l : JStr) : Bool :=
  (List.range (l.length + 1)).any (wordMatchAt pat l)

/-- Case-sensitive substring test (JS `String.prototype.includes`). -/
def substrTest (pat l : JStr) : Bool :=
  (List.range (l.length + 1)).any fun i => pat.isPrefixOf (l.drop i)

/-! ## Guardrail validator (`src/apps/src/lib` query-guardrails) -/

/-- Reserved SQL keywords that are never allowed in AI-generated queries
(`FORBIDDEN_KEYWORDS` in the source, in source order). -/
def FORBIDDEN_KEYWORDS : List JStr :=
  ["INSERT".data, "UPDATE".data, "DELETE".data, "DROP".data, "ALTER".data,
   "CREATE".data, "TRUNCATE".data, "GRANT".data, "REVOKE".data,
   "EXECUTE".data, "EXEC".data, "CALL".data, "MERGE".data, "REPLACE".data,
   "COPY".data, "VACUUM".data, "REINDEX".data, "CLUSTER".data,
   "COMMENT".data, "LOCK".data, "RESET".data, "BEGIN".data, "COMMIT".data,
   "ROLLBACK".data, "SAVEPOINT".data, "PREPARE".data, "DEALLOCATE".data,
   "LISTEN".data, "NOTIFY".data, "LOAD".data, "SECURITY".data]

def MAX_QUERY_LENGTH : Nat := 5000

def DEFAULT_ROW_LIMIT : Nat := 1000

/-- `Query exceeds maximum length of 5000 characters` -/
def lengthError : JStr :=
  "Query exceeds maximum length of 5000 characters".data

/-- `Only SELECT queries are permitted` -/
def selectOnlyError : JStr := "Only SELECT queries are permitted".data

/-- `Forbidden keyword detected: ${keyword}` -/
def kwError (kw : JStr) : JStr := "Forbidden keyword detected: ".data ++ kw

/-- `Multiple statements are not allowed` -/
def multiStmtError : JStr := "Multiple statements are not allowed".data

/-- `Access denied to table: ${table}` -/
def tableError (t : JStr) : JStr := "Access denied to table: ".data ++ t

/-- `Access to masked column "${col}" in table "${table}" is not allowed` -/
def maskedError (t c : JStr) : JStr :=
  "Access to masked column \"".data ++ c ++ "\" in table \"".data ++ t ++
    "\" is not allowed".data

/-- `No LIMIT clause detected. A default LIMIT ${maxRows} will be added.` -/
def limitWarning (maxRows : Nat) : JStr :=
  "No LIMIT clause detected. A default LIMIT ".data ++
    (toString maxRows).data ++ " will be added.".data

/-- `Complex subquery nesting detected. Consider simplifying.` -/
def complexityWarning : JStr :=
  "Complex subquery nesting detected. Consider simplifying.".data

/-- Check 3: one error per forbidden keyword occurring as a whole word. -/
def keywordErrors (sql : JStr) : List JStr :=
  FORBIDDEN_KEYWORDS.filterMap fun kw =>
    if testWordRegex kw sql then some (kwError kw) else none

/-- Drop characters up to and including the first occurrence of `q`;
`none` when `q` does not occur. -/
def dropThroughQuote (q : Char) : JStr → Option JStr
  | [] => none
  | c :: rest => if c = q then some rest else dropThroughQuote q rest

/-- Recursion core of `stripQuoted`.  The fuel only bounds the recursion
depth (each step consumes at least one character, so `l.length` is always
enough); it is not part of the modelled JS semantics. -/
def stripQuotedFuel (q : Char) : Nat → JStr → JStr
  | 0, l => l
  | _ + 1, [] => []
  | fuel + 1, c :: rest =>
    if c = q then
      match dropThroughQuote q rest with
      | some rest' => stripQuotedFuel q fuel rest'
      | none => c :: rest
    else c :: stripQuotedFuel q fuel rest

/-- JS `str.replace(/q[^q]*q/g, "")` for a quote character `q`: every
quote-delimited literal is removed; an unterminated opening quote (no
closing quote follows) is left in place. -/
def stripQuoted (q : Char) (l : JStr) : JStr := stripQuotedFuel q l.length l

/-- `sql.replace(/'[^']*'/g, "").replace(/"[^"]*"/g, "")`. -/
def strippedQuotes (sql : JStr) : JStr :=
  stripQuoted '"' (stripQuoted '\'' sql)

/-- Check 4: strip `'...'` then `"..."` literals, then flag more than one
non-blank `;`-separated segment. -/
def multiStmtErrors (sql : JStr) : List JStr :=
  if (strippedQuotes sql).contains ';' then
    if (((strippedQuotes sql).splitOn ';').filter
        fun s => !(jsTrim s).isEmpty).length > 1
    then [multiStmtError] else []
  else []

/-- `[a-zA-Z_]` — first character of an identifier in the table regex. -/
def isIdentStart (c : Char) : Bool := c.isAlpha || c = '_'

/-- Parse `[a-zA-Z_][a-zA-Z0-9_]*` greedily; returns the identifier and the
remaining input, or `none` when the input does not start with one. -/
def parseIdent : JStr → Option (JStr × JStr)
  | [] => none
  | c :: rest =>
    if isIdentStart c then
      some (c :: rest.takeWhile isWordChar, rest.dropWhile isWordChar)
    else none

/-- The source's post-processing of a captured table identifier:
`.replace(/"/g, "").toLowerCase()`. -/
def normIdent (id : JStr) : JStr := (id.filter (· ≠ '"')).map Char.toLower

/-- Tail of a regex match attempt, after `\s+` has been consumed: the
negative lookahead `(?!\(|LATERAL\b)` and the identifier captures. -/
def matchIdentPart (r2 : JStr) : Option (JStr × Option Char × JStr) :=
  if r2.head? = some '(' then none
  else if ciPrefixOf "LATERAL".data r2 && !optWordChar (charAt? r2 7) then
    none
  else
    match parseIdent r2 with
    | none => none
    | some (id1, r3) =>
      if r3.head? = some '.' then
        match parseIdent r3.tail with
        | some (id2, r4) => some (normIdent id2, id2.getLast?, r4)
        | none => some (normIdent id1, id1.getLast?, r3)
      else some (normIdent id1, id1.getLast?, r3)

/-- One attempted match of the table-reference regex
`\b(?:FROM|JOIN)\s+(?!\(|LATERAL\b)([a-zA-Z_][a-zA-Z0-9_]*)(?:\.([a-zA-Z_][a-zA-Z0-9_]*))?`
(flags `gi`) at the current position.  `prev` is the character before the
position (for the leading `\b`).  On success, returns the normalized chosen
capture (the table part when schema-qualified), the last consumed character,
and the rest of the input after the match. -/
def matchFromJoinAt (prev : Option Char) (l : JStr) :
    Option (JStr × Option Char × JStr) :=
  if optWordChar prev then none
  else if !(ciPrefixOf "FROM".data l || ciPrefixOf "JOIN".data l) then none
  else if !((l.drop 4).head?.any jsIsWs) then none
  else matchIdentPart ((l.drop 4).dropWhile jsIsWs)

theorem parseIdent_lt {l : JStr} {p : JStr × JStr} (h : parseIdent l = some p) :
    p.2.length < l.length := by
  cases l with
  | nil => simp [parseIdent] at h
  | cons c rest =>
    by_cases hc : isIdentStart c
    · simp [parseIdent, hc] at h
      have : (rest.dropWhile isWordChar).length ≤ rest.length :=
        (rest.dropWhile_sublist isWordChar).length_le
      rw [← h]
      simp only [List.length_cons]
      omega
    · simp [parseIdent, hc] at h

theorem matchIdentPart_le {r2 : JStr} {m : JStr × Option Char × JStr}
    (h : matchIdentPart r2 = some m) : m.2.2.length < r2.length := by
  unfold matchIdentPart at h
  split at h
  · exact absurd h (by simp)
  · split at h
    · exact absurd h (by simp)
    · split at h
      · exact absurd h (by simp)
      · rename_i id1 r3 hid1
        have h3 := parseIdent_lt hid1
        split at h
        · rename_i hdot
          have hr3 : r3 ≠ [] := by
            intro hnil
            rw [hnil] at hdot
            simp at hdot
          have htail : r3.tail.length = r3.length - 1 := List.length_tail r3
          have hr3pos : 0 < r3.length := List.length_pos.mpr hr3
          split at h
          · rename_i id2 r4 hid2
            have h4 := parseIdent_lt hid2
            cases h
            simp only at h3 h4 ⊢
            omega
          · cases h
            simp only at h3 ⊢
            omega
        · cases h
          simp only at h3 ⊢
          omega

theorem matchFromJoinAt_lt {prev : Option Char} {l : JStr}
    {m : JStr × Option Char × JStr} (h : matchFromJoinAt prev l = some m) :
    m.2.2.length < l.length := by
  unfold matchFromJoinAt at h
  split at h
  · exact absurd h (by simp)
  · split at h
    · exact absurd h (by simp)
    · split at h
      · exact absurd h (by simp)
      · rename_i hws
        have hr1 : (l.drop 4).length = l.length - 4 := List.length_drop 4 l
        have hr1ne : l.drop 4 ≠ [] := by
          intro hnil
          rw [hnil] at hws
          simp at hws
        have hr1pos : 0 < (l.drop 4).length := List.length_pos.mpr hr1ne
        have hr2 : ((l.drop 4).dropWhile jsIsWs).length ≤ (l.drop 4).length :=
          ((l.drop 4).dropWhile_sublist jsIsWs).length_le
        have := matchIdentPart_le h
        omega

/-- Recursion core of the `exec` loop of the table-reference regex: collect
normalized table names left to right, resuming after each match.  The fuel
only bounds the recursion depth (each step consumes at least one character,
so `l.length` is always enough). -/
def scanTablesFuel : Nat → Option Char → JStr → List JStr
  | 0, _, _ => []
  | _ + 1, _, [] => []
  | fuel + 1, prev, c :: rest =>
    match matchFromJoinAt prev (c :: rest) with
    | some (name, newPrev, after) => name :: scanTablesFuel fuel newPrev after
    | none => scanTablesFuel fuel (some c) rest

/-- The `exec` loop of the table-reference regex over the whole input. -/
def scanTables (l : JStr) : List JStr := scanTablesFuel l.length none l

/-- Check 5, extraction half: referenced tables, skipping the known
non-table tokens and de-duplicating in order of first occurrence. -/
def referencedTables (sql : JStr) : List JStr :=
  (scanTables sql).foldl
    (fun acc t =>
      if ["select".data, "lateral".data, "unnest".data,
          "generate_series".data].contains t then acc
      else if t ≠ [] && !acc.contains t then acc ++ [t]
      else acc)
    []

/-- Check 5, comparison half: one error per referenced table that is not in
the (lower-cased) authorized set. -/
def tableErrors (sql : JStr) (allowedTables : List JStr) : List JStr :=
  let allowedTablesLower := allowedTables.map fun t => t.map Char.toLower
  (referencedTables sql).filterMap fun t =>
    if t ≠ [] && !allowedTablesLower.contains t then some (tableError t)
    else none

/-- Check 6: one error per masked `(table, column)` pair whose column name
occurs in the raw SQL as a whole word. -/
def maskedErrors (sql : JStr) (maskedColumns : List (JStr × List JStr)) :
    List JStr :=
  maskedColumns.flatMap fun tc =>
    tc.2.filterMap fun c =>
      if testWordRegex c sql then some (maskedError tc.1 c) else none

/-- Checks 7 and 8: the advisory warnings. -/
def queryWarnings (sql : JStr) (maxRows : Nat) : List JStr :=
  (if !substrTest "LIMIT".data (jsToUpper (jsTrim sql)) then
     [limitWarning maxRows] else []) ++
  (if (sql.filter (· = '(')).length > 5 then [complexityWarning] else [])

/-- `QueryValidation` from `types.ts`. -/
structure QueryValidation where
  valid : Bool
  errors : List JStr
  warnings : List JStr
deriving DecidableEq, Repr

/-- `validateQuery` from the query-guardrails module: validate that a query
is safe for read-only execution.  The two leading checks return
immediately; the remaining checks accumulate errors in source order. -/
def validateQuery (sql : JStr) (allowedTables : List JStr)
    (maskedColumns : List (JStr × List JStr) := [])
    (maxRows : Nat := DEFAULT_ROW_LIMIT) : QueryValidation :=
  if sql.length > MAX_QUERY_LENGTH then
    { valid := false, errors := [lengthError], warnings := [] }
  else if !("SELECT".data.isPrefixOf (jsToUpper (jsTrim sql))) then
    { valid := false, errors := [selectOnlyError], warnings := [] }
  else
    let errors := keywordErrors sql ++ multiStmtErrors sql ++
      tableErrors sql allowedTables ++ maskedErrors sql maskedColumns
    { valid := errors.isEmpty, errors := errors,
      warnings := queryWarnings sql maxRows }

/-- JS `sql.replace(/;\s*$/, "")`: remove a trailing semicolon (together
with any whitespace after it); leave the string unchanged when it does not
end in `;` followed only by whitespace. -/
def stripTrailingSemi (l : JStr) : JStr :=
  match l.reverse.dropWhile jsIsWs with
  | ';' :: r' => r'.reverse
  | _ => l

/-- `enforceLimit` from the query-guardrails module: add a `LIMIT` clause
to a query if one is not already present. -/
def enforceLimit (sql : JStr) (maxRows : Nat := DEFAULT_ROW_LIMIT) : JStr :=
  if !substrTest "LIMIT".data (jsToUpper (jsTrim sql)) then
    stripTrailingSemi sql ++ " LIMIT ".data ++ (toString maxRows).data
  else sql

/-! ## Anomaly heuristics (`src/apps/src/lib/services/anomaly-service.ts`)

Numbers read from result rows (`Number(rows[i]?.total ?? 0)`) are modelled
as rationals; `Math.round` is `⌊x + 1/2⌋` (JS rounds half towards `+∞`).
The purely cosmetic `description`/`detail` strings (which use JS number
formatting, `toFixed`/`toLocaleString`) are not modelled. -/

/-- JS `Math.round`. -/
def jsRound (x : ℚ) : ℤ := ⌊x + 1 / 2⌋

/-- The fields of a synthesized `ComparisonQuery` consumed by detection. -/
structure ComparisonQuery where
  description : JStr
  sql : JStr
  tableName : JStr
  columnName : JStr
deriving DecidableEq, Repr

/-- One result row, restricted to the two fields the heuristic reads
(`total` and `row_count`). -/
structure ResultRow where
  total : ℚ
  rowCount : ℚ
deriving DecidableEq, Repr

/-- A `RawResult`: a comparison query together with its result rows. -/
structure RawResult where
  query : ComparisonQuery
  rows : List ResultRow
deriving DecidableEq, Repr

inductive AnomalySeverity where
  | critical
  | warning
  | info
deriving DecidableEq, Repr

/-- A `DetectedAnomaly`, minus the unmodelled cosmetic text fields. -/
structure DetectedAnomaly where
  severity : AnomalySeverity
  metricName : JStr
  tableName : JStr
  columnName : JStr
  currentValue : ℚ
  previousValue : ℚ
  changePercent : ℚ
  queryUsed : JStr
deriving DecidableEq, Repr

/-- `heuristicDetect`: pure heuristic anomaly detection; flags significant
percentage changes between the first two rows of each comparison result. -/
def heuristicDetect (results : List RawResult) : List DetectedAnomaly :=
  results.filterMap fun r =>
    match r.rows with
    | currentRow :: previousRow :: _ =>
      let current := currentRow.total
      let previous := previousRow.total
      if current = 0 ∧ previous = 0 then none
      else
        let changePercent : ℚ :=
          if previous ≠ 0 then (current - previous) / |previous| * 100
          else if 0 < current then 100 else 0
        let absChange := |changePercent|
        if absChange < 20 then none
        else
          let severity : AnomalySeverity :=
            if 50 ≤ absChange then .critical
            else if 30 ≤ absChange then .warning
            else .info
          let periodLabel :=
            if substrTest "30-day".data r.query.description then
              "month-over-month".data
            else "week-over-week".data
          some
            { severity := severity
              metricName := r.query.tableName ++ ".".data ++
                r.query.columnName ++ " (".data ++ periodLabel ++ ")".data
              tableName := r.query.tableName
              columnName := r.query.columnName
              currentValue := current
              previousValue := previous
              changePercent := (jsRound (changePercent * 10) : ℚ) / 10
              queryUsed := r.query.sql }
    | _ => none

/-! ## Guarded executor (`src/apps/src/lib/services/query-service.ts`)

`executeGuardedQuery` is modelled as a pure function of: an environment
(what `getDataSource` / `getAllowedTables` / `getMaskedColumns` return for
the given data-source id), and an oracle giving the external database's
response to the rewritten SQL.  The audit writes performed via `logQuery`
(an `INSERT` into `query_audit_log`) are collected in a list, in order.
Wall-clock timing fields (`executionTimeMs`) are not modelled. -/

/-- One row of `query_audit_log`, restricted to the modelled fields. -/
structure AuditRecord where
  dataSourceId : JStr
  queryText : JStr
  status : JStr
  errorMessage : Option JStr
  rowCount : Option Nat
deriving DecidableEq, Repr

/-- The external database's response to an executed statement. -/
inductive ExecOutcome where
  | ok (rowCount : Nat)
  | fail (msg : JStr)
deriving DecidableEq, Repr

/-- `QueryResult` from `types.ts`, restricted to the modelled fields. -/
structure QueryResultM where
  rowCount : Nat
  truncated : Bool
deriving DecidableEq, Repr

/-- What the metadata store returns for a data-source id: whether
`getDataSource` finds it, and its permissions. -/
structure GuardedEnv where
  dataSourceExists : Bool
  allowedTables : List JStr
  maskedColumns : List (JStr × List JStr)
deriving DecidableEq, Repr

/-- Everything observable about one `executeGuardedQuery` call: the
returned validation and result, the audit records written, and whether a
connection to the external database was requested. -/
structure GuardedOutcome where
  validation : QueryValidation
  result : Option QueryResultM
  audits : List AuditRecord
  connectionOpened : Bool
deriving DecidableEq, Repr

/-- `validation.errors.join("; ")`. -/
def joinErrors (errors : List JStr) : JStr := List.intercalate "; ".data errors

/-- `executeGuardedQuery(dataSourceId, sql)`: the guarded, read-only query
pipeline — resolve the data source, load permissions, validate, rewrite
with `enforceLimit`, execute, audit. -/
def executeGuardedQuery (env : GuardedEnv) (dataSourceId sql : JStr)
    (exec : JStr → ExecOutcome) : GuardedOutcome :=
  if !env.dataSourceExists then
    { validation :=
        { valid := false
          errors := ["Data source not found: ".data ++ dataSourceId]
          warnings := [] }
      result := none, audits := [], connectionOpened := false }
  else if env.allowedTables.isEmpty then
    { validation :=
        { valid := false
          errors := ["No tables are authorized for this data source".data]
          warnings := [] }
      result := none, audits := [], connectionOpened := false }
  else
    let validation := validateQuery sql env.allowedTables env.maskedColumns
    if !validation.valid then
      { validation := validation
        result := none
        audits := [{ dataSourceId := dataSourceId, queryText := sql,
                     status := "rejected".data,
                     errorMessage := some (joinErrors validation.errors),
                     rowCount := none }]
        connectionOpened := false }
    else
      let safeSql := enforceLimit sql
      match exec safeSql with
      | .ok rowCount =>
        { validation := validation
          result := some { rowCount := rowCount, truncated := false }
          audits := [{ dataSourceId := dataSourceId, queryText := safeSql,
                       status := "success".data, errorMessage := none,
                       rowCount := some rowCount }]
          connectionOpened := true }
      | .fail msg =>
        { validation :=
            { valid := false
              errors := ["Query execution error: ".data ++ msg]
              warnings := validation.warnings }
          result := none
          audits := [{ dataSourceId := dataSourceId, queryText := safeSql,
                       status := "error".data, errorMessage := some msg,
                       rowCount := none }]
          connectionOpened := true }

/-! ## Pool registry (`query-service.ts`, pool cache)

The registry `Map<string, {pool, lastUsed}>` is modelled as an association
list from data-source id to `(pool id, lastUsed)`; a fresh `new Pool(...)`
is modelled by allocating the next pool id from a counter, so two calls
return the same underlying pool instance iff they return the same id.
The lifecycle (guarded-query calls and `setInterval` sweep ticks) is a
list of timestamped steps. -/

def POOL_TTL_MS : Nat := 5 * 60 * 1000

/-- One pool-cache entry: the pool instance (by id) and `lastUsed`. -/
structure PoolEntry where
  pid : Nat
  lastUsed : Nat
deriving DecidableEq, Repr

/-- The pool registry plus an allocator for fresh pool instances. -/
structure PoolCache where
  entries : List (JStr × PoolEntry)
  nextPid : Nat
deriving DecidableEq, Repr

/-- `getOrCreatePool`: reuse a cached pool (refreshing `lastUsed`), or
create a fresh pool for this data source.  Returns the pool id used. -/
def getOrCreatePool (c : PoolCache) (dataSourceId : JStr) (now : Nat) :
    PoolCache × Nat :=
  match c.entries.lookup dataSourceId with
  | some e =>
    ({ c with
        entries := c.entries.map fun kv =>
          if kv.1 = dataSourceId then (kv.1, ⟨e.pid, now⟩) else kv },
     e.pid)
  | none =>
    ({ entries := (dataSourceId, ⟨c.nextPid, now⟩) :: c.entries,
       nextPid := c.nextPid + 1 },
     c.nextPid)

/-- One tick of the periodic cleanup: close and drop every pool idle
longer than the TTL. -/
def sweepPools (c : PoolCache) (now : Nat) : PoolCache :=
  { c with
      entries := c.entries.filter fun kv =>
        !(now - kv.2.lastUsed > POOL_TTL_MS) }

/-- A step of the registry's lifecycle: a guarded-query call for a data
source, or a sweep tick, each at a wall-clock time. -/
inductive PoolStep where
  | call (dataSourceId : JStr) (t : Nat)
  | sweep (t : Nat)
deriving DecidableEq, Repr

/-- The time at which a step happens. -/
def PoolStep.time : PoolStep → Nat
  | .call _ t => t
  | .sweep t => t

def poolStep (c : PoolCache) : PoolStep → PoolCache
  | .call ds t => (getOrCreatePool c ds t).1
  | .sweep t => sweepPools c t

def runPool (c : PoolCache) (steps : List PoolStep) : PoolCache :=
  steps.foldl poolStep c

/-! ## Helper lemmas about the validator -/

/-- Oversized queries short-circuit with only the length error. -/
theorem validateQuery_length_exceeded (sql : JStr) (ats : List JStr)
    (mcs : List (JStr × List JStr)) (n : Nat)
    (h : sql.length > MAX_QUERY_LENGTH) :
    validateQuery sql ats mcs n = ⟨false, [lengthError], []⟩ := by
  unfold validateQuery
  rw [if_pos h]

/-- Within the length bound, a query whose trimmed upper-cased text does
not start with `SELECT` short-circuits with only the SELECT-only error. -/
theorem validateQuery_not_select (sql : JStr) (ats : List JStr)
    (mcs : List (JStr × List JStr)) (n : Nat)
    (hlen : sql.length ≤ MAX_QUERY_LENGTH)
    (hsel : "SELECT".data.isPrefixOf (jsToUpper (jsTrim sql)) = false) :
    validateQuery sql ats mcs n = ⟨false, [selectOnlyError], []⟩ := by
  unfold validateQuery
  rw [if_neg (by omega), if_pos (by simp [hsel])]

/-- For an in-bounds `SELECT` query, the validator output is the
concatenation of the four error segments plus the advisory warnings. -/
theorem validateQuery_select (sql : JStr) (ats : List JStr)
    (mcs : List (JStr × List JStr)) (n : Nat)
    (hlen : sql.length ≤ MAX_QUERY_LENGTH)
    (hsel : "SELECT".data.isPrefixOf (jsToUpper (jsTrim sql)) = true) :
    validateQuery sql ats mcs n =
      ⟨(keywordErrors sql ++ multiStmtErrors sql ++ tableErrors sql ats ++
          maskedErrors sql mcs).isEmpty,
        keywordErrors sql ++ multiStmtErrors sql ++ tableErrors sql ats ++
          maskedErrors sql mcs,
        queryWarnings sql n⟩ := by
  unfold validateQuery
  rw [if_neg (by omega), if_neg (by simp [hsel])]

theorem isPrefixOf_eq_false_of_head {p l : JStr} {c d : Char}
    (hp : p.head? = some c) (hl : l.head? = some d) (hne : (c == d) = false) :
    p.isPrefixOf l = false := by
  cases p with
  | nil => simp at hp
  | cons a p' =>
    cases l with
    | nil => simp at hl
    | cons b l' =>
      simp only [List.head?_cons, Option.some.injEq] at hp hl
      subst hp
      subst hl
      simp [List.isPrefixOf, hne]

/-! ## Claim C1 -/

/-- **C1 (counterexample).**  A 5001-character query that does not begin
with `SELECT` still fails, but with the single length error, which does
not mention `SELECT` — the claim's universally quantified conclusion
("exactly one error, that error mentions SELECT") is false for it. -/
theorem C1_counterexample :
    "SELECT".data.isPrefixOf
        (jsToUpper (jsTrim (List.replicate 5001 'X'))) = false ∧
    validateQuery (List.replicate 5001 'X') [] [] 1000 =
      ⟨false, [lengthError], []⟩ ∧
    substrTest "SELECT".data lengthError = false := by
  refine ⟨?_, ?_, by decide⟩
  · have hdrop : List.dropWhile jsIsWs (List.replicate 5001 'X') =
        List.replicate 5001 'X' := by
      rw [show (5001 : Nat) = 5000 + 1 from rfl, List.replicate_succ,
        List.dropWhile_cons, if_neg (by decide), ← List.replicate_succ]
    have htrim : jsTrim (List.replicate 5001 'X') = List.replicate 5001 'X' := by
      unfold jsTrim
      rw [hdrop, List.reverse_replicate, hdrop, List.reverse_replicate]
    rw [htrim]
    unfold jsToUpper
    rw [List.map_replicate, show Char.toUpper 'X' = 'X' from by decide]
    exact isPrefixOf_eq_false_of_head (c := 'S') (d := 'X') rfl
      (by rw [show (5001 : Nat) = 5000 + 1 from rfl, List.replicate_succ]; rfl)
      (by decide)
  · exact validateQuery_length_exceeded _ _ _ _
      (by rw [List.length_replicate]; decide)

/-- **C1 (amended).**  For every SQL string *of length at most 5000* that,
after trimming and case-normalization, does not begin with `SELECT`,
`validateQuery` returns `valid = false` with exactly the one SELECT-only
error (which mentions `SELECT`) and no warnings — no further checks
contribute errors or warnings. -/
theorem C1_amended (sql : JStr) (ats : List JStr)
    (mcs : List (JStr × List JStr)) (n : Nat)
    (hlen : sql.length ≤ MAX_QUERY_LENGTH)
    (hsel : "SELECT".data.isPrefixOf (jsToUpper (jsTrim sql)) = false) :
    validateQuery sql ats mcs n = ⟨false, [selectOnlyError], []⟩ ∧
    substrTest "SELECT".data selectOnlyError = true :=
  ⟨validateQuery_not_select sql ats mcs n hlen hsel, by decide⟩

/-- Witness for C1: a concrete non-SELECT statement. -/
theorem C1_witness :
    validateQuery "UPDATE t SET x = 1".data [] [] 1000 =
      ⟨false, [selectOnlyError], []⟩ ∧
    substrTest "SELECT".data selectOnlyError = true :=
  C1_amended "UPDATE t SET x = 1".data [] [] 1000 (by decide) (by decide)

/-! ## Claim C4 -/

/-- **C4 (counterexample).**  `validateQuery("DROP TABLE users", ["users"])`
does *not* include a DROP forbidden-keyword violation: the SELECT-shape
check returns immediately, so its errors are exactly the SELECT-only
error. -/
theorem C4_counterexample :
    kwError "DROP".data ∉
      (validateQuery "DROP TABLE users".data ["users".data] [] 1000).errors := by
  decide

/-- **C4 (amended).**  `validateQuery("DROP TABLE users", ["users"])`
returns `valid = false` with errors consisting of exactly the SELECT-only
violation; the DROP keyword check never runs, so no DROP error appears. -/
theorem C4_amended :
    validateQuery "DROP TABLE users".data ["users".data] [] 1000 =
      ⟨false, [selectOnlyError], []⟩ := by
  decide

/-! ## Claim C7 -/

/-- **C7 (counterexample).**  `"SELECT unlimited FROM t"` contains no
`LIMIT` *token* (no whole-word occurrence), yet `enforceLimit` returns it
unchanged — because the source tests for the substring `LIMIT`, which
occurs inside the identifier `unlimited`.  So "appends exactly when the
normalized text contains no LIMIT token" is false. -/
theorem C7_counterexample :
    testWordRegex "LIMIT".data
        (jsToUpper (jsTrim "SELECT unlimited FROM t".data)) = false ∧
    enforceLimit "SELECT unlimited FROM t".data 1000 =
      "SELECT unlimited FROM t".data ∧
    enforceLimit "SELECT unlimited FROM t".data 1000 ≠
      stripTrailingSemi "SELECT unlimited FROM t".data ++ " LIMIT ".data ++
        "1000".data := by
  refine ⟨by decide, by decide, by decide⟩

/-- **C7 (amended).**  `enforceLimit` appends a `LIMIT` clause (after
stripping a trailing statement terminator) exactly when the trimmed,
upper-cased text contains no occurrence of the *substring* `LIMIT` (even
inside a longer word); in every other case it returns the input string
unchanged. -/
theorem C7_amended (sql : JStr) (n : Nat) :
    (substrTest "LIMIT".data (jsToUpper (jsTrim sql)) = false →
      enforceLimit sql n =
        stripTrailingSemi sql ++ " LIMIT ".data ++ (toString n).data) ∧
    (substrTest "LIMIT".data (jsToUpper (jsTrim sql)) = true →
      enforceLimit sql n = sql) := by
  constructor
  · intro h
    unfold enforceLimit
    rw [if_pos (by simp [h])]
  · intro h
    unfold enforceLimit
    rw [if_neg (by simp [h])]

/-- Witness for C7: one query without the substring (clause appended) and
one with it (returned unchanged). -/
theorem C7_witness :
    enforceLimit "SELECT a FROM t;".data 50 =
      stripTrailingSemi "SELECT a FROM t;".data ++ " LIMIT ".data ++
        (toString 50).data ∧
    enforceLimit "SELECT a FROM t LIMIT 5".data 50 =
      "SELECT a FROM t LIMIT 5".data :=
  ⟨(C7_amended "SELECT a FROM t;".data 50).1 (by decide),
   (C7_amended "SELECT a FROM t LIMIT 5".data 50).2 (by decide)⟩

/-! ## Claim C5 -/

/-- **C5 (counterexample).**  The claim quantifies over *every* SQL string,
but the masked-column check only runs for in-bounds SELECT statements:
`"UPDATE email"` contains the masked column `email` as a whole word, yet
the result contains only the SELECT-only error. -/
theorem C5_counterexample :
    testWordRegex "email".data "UPDATE email".data = true ∧
    validateQuery "UPDATE email".data ["users".data]
        [("users".data, ["email".data])] 1000 =
      ⟨false, [selectOnlyError], []⟩ ∧
    maskedError "users".data "email".data ≠ selectOnlyError := by
  refine ⟨by decide, by decide, by decide⟩

/-- **C5 (amended).**  For in-bounds SELECT queries: every masked
`(table, column)` pair whose column occurs in the raw SQL as a whole word
yields an error naming both, regardless of the tables actually referenced,
and forces `valid = false`; when no masked column occurs as a whole word
the result is as if the masked-column map were empty; and the claim's
scenario holds with exactly one error. -/
theorem C5_amended (sql : JStr) (ats : List JStr)
    (mcs : List (JStr × List JStr)) (n : Nat)
    (hlen : sql.length ≤ MAX_QUERY_LENGTH)
    (hsel : "SELECT".data.isPrefixOf (jsToUpper (jsTrim sql)) = true) :
    (∀ tc ∈ mcs, ∀ c ∈ tc.2, testWordRegex c sql = true →
      maskedError tc.1 c ∈ (validateQuery sql ats mcs n).errors ∧
      (validateQuery sql ats mcs n).valid = false) ∧
    ((∀ tc ∈ mcs, ∀ c ∈ tc.2, testWordRegex c sql = false) →
      validateQuery sql ats mcs n = validateQuery sql ats [] n) ∧
    validateQuery "SELECT email FROM users".data ["users".data]
        [("users".data, ["email".data])] 1000 =
      ⟨false, [maskedError "users".data "email".data], [limitWarning 1000]⟩ := by
  refine ⟨?_, ?_, by decide⟩
  · intro tc htc c hc htest
    have hmem : maskedError tc.1 c ∈ maskedErrors sql mcs := by
      unfold maskedErrors
      rw [List.mem_flatMap]
      refine ⟨tc, htc, ?_⟩
      rw [List.mem_filterMap]
      exact ⟨c, hc, by rw [if_pos htest]⟩
    have hmem' : maskedError tc.1 c ∈ keywordErrors sql ++
        multiStmtErrors sql ++ tableErrors sql ats ++ maskedErrors sql mcs := by
      simp [List.mem_append, hmem]
    rw [validateQuery_select sql ats mcs n hlen hsel]
    exact ⟨hmem', by simpa [List.isEmpty_eq_false] using
      List.ne_nil_of_mem hmem'⟩
  · intro hall
    have hm : maskedErrors sql mcs = [] := by
      unfold maskedErrors
      rw [List.flatMap_eq_nil_iff]
      intro tc htc
      rw [List.filterMap_eq_nil_iff]
      intro c hc
      simp [hall tc htc c hc]
    rw [validateQuery_select sql ats mcs n hlen hsel,
      validateQuery_select sql ats [] n hlen hsel, hm]
    simp [maskedErrors]

/-- Witness for C5: the scenario input, via the amended theorem. -/
theorem C5_witness :
    maskedError "users".data "email".data ∈
      (validateQuery "SELECT email FROM users".data ["users".data]
        [("users".data, ["email".data])] 1000).errors ∧
    (validateQuery "SELECT email FROM users".data ["users".data]
        [("users".data, ["email".data])] 1000).valid = false :=
  (C5_amended "SELECT email FROM users".data ["users".data]
      [("users".data, ["email".data])] 1000 (by decide) (by decide)).1
    ("users".data, ["email".data]) (by decide) "email".data (by decide)
    (by decide)

/-! ## Claim C6 -/

/-- **C6 (counterexample).**  A call with an unknown data source returns a
failing validation without executing, but writes *no* audit record — the
claim says every such early return writes a `rejected` audit record. -/
theorem C6_counterexample :
    (executeGuardedQuery ⟨false, [], []⟩ "db1".data "SELECT 1".data
        (fun _ => .ok 0)).validation.valid = false ∧
    (executeGuardedQuery ⟨false, [], []⟩ "db1".data "SELECT 1".data
        (fun _ => .ok 0)).audits = [] := by
  refine ⟨by decide, by decide⟩

/-- **C6 (amended).**  Of the three failing-validation early returns of
`executeGuardedQuery`, only the guardrail-validation failure writes an
audit record (status `rejected`, carrying the joined error text); the
unknown-data-source and empty-authorized-table returns write none.  None
of the three opens a connection to the external database. -/
theorem C6_amended (env : GuardedEnv) (dsId sql : JStr)
    (exec : JStr → ExecOutcome) :
    (env.dataSourceExists = false →
      executeGuardedQuery env dsId sql exec =
        ⟨⟨false, ["Data source not found: ".data ++ dsId], []⟩,
          none, [], false⟩) ∧
    (env.dataSourceExists = true → env.allowedTables = [] →
      executeGuardedQuery env dsId sql exec =
        ⟨⟨false, ["No tables are authorized for this data source".data], []⟩,
          none, [], false⟩) ∧
    (env.dataSourceExists = true → env.allowedTables ≠ [] →
      (validateQuery sql env.allowedTables env.maskedColumns).valid = false →
      executeGuardedQuery env dsId sql exec =
        ⟨validateQuery sql env.allowedTables env.maskedColumns, none,
          [⟨dsId, sql, "rejected".data,
            some (joinErrors
              (validateQuery sql env.allowedTables env.maskedColumns).errors),
            none⟩],
          false⟩) := by
  refine ⟨?_, ?_, ?_⟩
  · intro h
    simp [executeGuardedQuery, h]
  · intro h1 h2
    simp [executeGuardedQuery, h1, h2]
  · intro h1 h2 hv
    simp [executeGuardedQuery, h1, hv, List.isEmpty_eq_false.mpr h2]

/-- Witness for C6: each of the three early-return paths on concrete
inputs. -/
theorem C6_witness :
    executeGuardedQuery ⟨false, [], []⟩ "db".data "SELECT 1".data
        (fun _ => .ok 0) =
      ⟨⟨false, ["Data source not found: db".data], []⟩, none, [], false⟩ ∧
    executeGuardedQuery ⟨true, [], []⟩ "db".data "SELECT 1".data
        (fun _ => .ok 0) =
      ⟨⟨false, ["No tables are authorized for this data source".data], []⟩,
        none, [], false⟩ ∧
    executeGuardedQuery ⟨true, ["users".data], []⟩ "db".data
        "DROP TABLE users".data (fun _ => .ok 0) =
      ⟨⟨false, [selectOnlyError], []⟩, none,
        [⟨"db".data, "DROP TABLE users".data, "rejected".data,
          some selectOnlyError, none⟩],
        false⟩ :=
  ⟨((C6_amended ⟨false, [], []⟩ "db".data "SELECT 1".data
      (fun _ => .ok 0)).1 rfl).trans (by decide),
   ((C6_amended ⟨true, [], []⟩ "db".data "SELECT 1".data
      (fun _ => .ok 0)).2.1 rfl rfl).trans (by decide),
   ((C6_amended ⟨true, ["users".data], []⟩ "db".data "DROP TABLE users".data
      (fun _ => .ok 0)).2.2 rfl (by decide) (by decide)).trans (by decide)⟩

/-! ## Shape of the error messages, and keyword-error counting -/

theorem kwError_inj {a b : JStr} (h : kwError a = kwError b) : a = b :=
  List.append_cancel_left h

theorem head?_append_of_head? {l1 l2 : JStr} {c : Char}
    (h : l1.head? = some c) : (l1 ++ l2).head? = some c := by
  cases l1 with
  | nil => simp at h
  | cons a t => simpa using h

theorem ne_of_head? {a b : JStr} {c d : Char} (ha : a.head? = some c)
    (hb : b.head? = some d) (hcd : c ≠ d) : a ≠ b := by
  intro h
  rw [h, hb] at ha
  injection ha with h'
  exact hcd h'.symm

theorem kwError_ne_multiStmtError (kw : JStr) : kwError kw ≠ multiStmtError :=
  ne_of_head? (head?_append_of_head? rfl) rfl (by decide)

theorem kwError_ne_tableError (kw t : JStr) : kwError kw ≠ tableError t :=
  ne_of_head? (head?_append_of_head? rfl) (head?_append_of_head? rfl)
    (by decide)

theorem kwError_ne_maskedError (kw t c : JStr) :
    kwError kw ≠ maskedError t c :=
  ne_of_head? (head?_append_of_head? rfl) (head?_append_of_head? rfl)
    (by decide)

theorem kwError_notMem_multiStmtErrors (kw sql : JStr) :
    kwError kw ∉ multiStmtErrors sql := by
  intro h
  unfold multiStmtErrors at h
  split at h
  · split at h
    · exact kwError_ne_multiStmtError kw (by simpa using h)
    · simp at h
  · simp at h

theorem mem_tableErrors {e sql : JStr} {ats : List JStr}
    (h : e ∈ tableErrors sql ats) : ∃ t, e = tableError t := by
  unfold tableErrors at h
  rw [List.mem_filterMap] at h
  obtain ⟨t, _, hsome⟩ := h
  split at hsome
  · exact ⟨t, by injection hsome with h'; exact h'.symm⟩
  · simp at hsome

theorem mem_maskedErrors {e sql : JStr} {mcs : List (JStr × List JStr)}
    (h : e ∈ maskedErrors sql mcs) : ∃ t c, e = maskedError t c := by
  unfold maskedErrors at h
  rw [List.mem_flatMap] at h
  obtain ⟨tc, _, hin⟩ := h
  rw [List.mem_filterMap] at hin
  obtain ⟨c, _, hsome⟩ := hin
  split at hsome
  · exact ⟨tc.1, c, by injection hsome with h'; exact h'.symm⟩
  · simp at hsome

theorem count_keywordErrors_zero (sql kw : JStr) :
    ∀ L : List JStr, kw ∉ L →
      (L.filterMap fun k =>
        if testWordRegex k sql then some (kwError k) else none).count
        (kwError kw) = 0 := by
  intro L
  induction L with
  | nil => intro; simp
  | cons a L' ih =>
    intro hnm
    have ha : a ≠ kw := fun h => hnm (h ▸ List.mem_cons_self a L')
    have hL' : kw ∉ L' := fun h => hnm (List.mem_cons_of_mem a h)
    by_cases hta : testWordRegex a sql = true
    · rw [List.filterMap_cons_some (by rw [if_pos hta]),
        List.count_cons, ih hL']
      have : (kwError a == kwError kw) = false := by
        simp only [beq_eq_false_iff_ne, ne_eq]
        exact fun h => ha (kwError_inj h)
      simp [this]
    · rw [List.filterMap_cons_none (by rw [if_neg hta])]
      exact ih hL'

theorem count_keywordErrors (sql kw : JStr) (hkw : kw ∈ FORBIDDEN_KEYWORDS)
    (hnd : FORBIDDEN_KEYWORDS.Nodup) :
    (keywordErrors sql).count (kwError kw) =
      if testWordRegex kw sql then 1 else 0 := by
  unfold keywordErrors
  generalize hL : FORBIDDEN_KEYWORDS = L at hkw hnd
  clear hL
  induction L with
  | nil => simp at hkw
  | cons a L' ih =>
    rcases List.mem_cons.mp hkw with rfl | hkw'
    · have hnm : kw ∉ L' := (List.nodup_cons.mp hnd).1
      by_cases htest : testWordRegex kw sql = true
      · rw [List.filterMap_cons_some (by rw [if_pos htest]),
          List.count_cons, count_keywordErrors_zero sql kw L' hnm,
          if_pos htest]
        simp
      · rw [List.filterMap_cons_none (by rw [if_neg htest]),
          count_keywordErrors_zero sql kw L' hnm,
          if_neg htest]
    · have ha : a ≠ kw := fun h =>
        (List.nodup_cons.mp hnd).1 (h ▸ hkw')
      have ihz := ih hkw' (List.nodup_cons.mp hnd).2
      by_cases hta : testWordRegex a sql = true
      · rw [List.filterMap_cons_some (by rw [if_pos hta]),
          List.count_cons, ihz]
        have : (kwError a == kwError kw) = false := by
          simp only [beq_eq_false_iff_ne, ne_eq]
          exact fun h => ha (kwError_inj h)
        simp [this]
      · rw [List.filterMap_cons_none (by rw [if_neg hta])]
        exact ihz

/-- For an in-bounds SELECT query, a forbidden keyword contributes exactly
one error when it occurs as a whole word, and none otherwise. -/
theorem validateQuery_count_kwError (sql : JStr) (ats : List JStr)
    (mcs : List (JStr × List JStr)) (n : Nat)
    (hlen : sql.length ≤ MAX_QUERY_LENGTH)
    (hsel : "SELECT".data.isPrefixOf (jsToUpper (jsTrim sql)) = true)
    (kw : JStr) (hkw : kw ∈ FORBIDDEN_KEYWORDS) :
    (validateQuery sql ats mcs n).errors.count (kwError kw) =
      if testWordRegex kw sql then 1 else 0 := by
  rw [validateQuery_select sql ats mcs n hlen hsel]
  simp only
  rw [List.count_append, List.count_append, List.count_append]
  rw [count_keywordErrors sql kw hkw (by decide)]
  have h2 : (multiStmtErrors sql).count (kwError kw) = 0 :=
    List.count_eq_zero.mpr (kwError_notMem_multiStmtErrors kw sql)
  have h3 : (tableErrors sql ats).count (kwError kw) = 0 :=
    List.count_eq_zero.mpr fun hmem => by
      obtain ⟨t, het⟩ := mem_tableErrors hmem
      exact kwError_ne_tableError kw t het
  have h4 : (maskedErrors sql mcs).count (kwError kw) = 0 :=
    List.count_eq_zero.mpr fun hmem => by
      obtain ⟨t, c, het⟩ := mem_maskedErrors hmem
      exact kwError_ne_maskedError kw t c het
  rw [h2, h3, h4]
  omega

/-- For an in-bounds SELECT query, a forbidden keyword occurring as a
whole word is reported by name and forces `valid = false`. -/
theorem validateQuery_keyword_detected (sql : JStr) (ats : List JStr)
    (mcs : List (JStr × List JStr)) (n : Nat)
    (hlen : sql.length ≤ MAX_QUERY_LENGTH)
    (hsel : "SELECT".data.isPrefixOf (jsToUpper (jsTrim sql)) = true)
    (kw : JStr) (hkw : kw ∈ FORBIDDEN_KEYWORDS)
    (htest : testWordRegex kw sql = true) :
    kwError kw ∈ (validateQuery sql ats mcs n).errors ∧
    (validateQuery sql ats mcs n).valid = false := by
  have hmem : kwError kw ∈ keywordErrors sql := by
    unfold keywordErrors
    rw [List.mem_filterMap]
    exact ⟨kw, hkw, by rw [if_pos htest]⟩
  have hmem' : kwError kw ∈ keywordErrors sql ++ multiStmtErrors sql ++
      tableErrors sql ats ++ maskedErrors sql mcs := by
    simp [List.mem_append, hmem]
  rw [validateQuery_select sql ats mcs n hlen hsel]
  exact ⟨hmem', by simpa [List.isEmpty_eq_false] using
    List.ne_nil_of_mem hmem'⟩

/-! ## Claim C3 -/

/-- **C3 (counterexample).**  The claim quantifies over every SELECT
statement, but a 5001-character SELECT statement containing `DROP` as a
whole word is rejected by the length check alone: no keyword error is
appended. -/
theorem C3_counterexample :
    "SELECT".data.isPrefixOf
        ("SELECT DROP".data ++ List.replicate 4990 ' ') = true ∧
    testWordRegex "DROP".data
        ("SELECT DROP".data ++ List.replicate 4990 ' ') = true ∧
    "DROP".data ∈ FORBIDDEN_KEYWORDS ∧
    (validateQuery ("SELECT DROP".data ++ List.replicate 4990 ' ')
        [] [] 1000).errors = [lengthError] ∧
    kwError "DROP".data ∉ [lengthError] := by
  refine ⟨by decide, ?_, by decide, ?_, by decide⟩
  · unfold testWordRegex
    rw [List.any_eq_true]
    refine ⟨7, List.mem_range.mpr ?_, by decide⟩
    rw [List.length_append, List.length_replicate]
    decide
  · rw [validateQuery_length_exceeded _ [] [] 1000
      (by rw [List.length_append, List.length_replicate]; decide)]

/-- **C3 (amended).**  For every SELECT statement *of length at most 5000*
and every forbidden keyword: the errors list contains the error naming
that keyword exactly once when the keyword occurs in the raw SQL as a
whole word (case-insensitive, word-boundary matching), and not at all
otherwise — so substring occurrences inside longer identifiers are not
reported, every present keyword is reported, and each contributes one
distinct error. -/
theorem C3_amended (sql : JStr) (ats : List JStr)
    (mcs : List (JStr × List JStr)) (n : Nat)
    (hlen : sql.length ≤ MAX_QUERY_LENGTH)
    (hsel : "SELECT".data.isPrefixOf (jsToUpper (jsTrim sql)) = true)
    (kw : JStr) (hkw : kw ∈ FORBIDDEN_KEYWORDS) :
    (validateQuery sql ats mcs n).errors.count (kwError kw) =
      if testWordRegex kw sql then 1 else 0 :=
  validateQuery_count_kwError sql ats mcs n hlen hsel kw hkw

/-- Witness for C3: `RESET` as a whole word is reported exactly once;
`RESET` inside the identifier `preset` is not reported. -/
theorem C3_witness :
    (validateQuery "SELECT RESET FROM t".data ["t".data] [] 1000).errors.count
        (kwError "RESET".data) = 1 ∧
    (validateQuery "SELECT x FROM preset".data ["preset".data] []
        1000).errors.count (kwError "RESET".data) = 0 :=
  ⟨(C3_amended "SELECT RESET FROM t".data ["t".data] [] 1000 (by decide)
      (by decide) "RESET".data (by decide)).trans (by decide),
   (C3_amended "SELECT x FROM preset".data ["preset".data] [] 1000
      (by decide) (by decide) "RESET".data (by decide)).trans (by decide)⟩

/-! ## Claim C10 -/

/-- **C10 (counterexample).**  The claim quantifies over every SQL string
beginning with SELECT, but a 5005-character one containing `SECURITY` as a
standalone word is rejected by the length check alone — `valid` is indeed
`false`, but no error names the keyword. -/
theorem C10_counterexample :
    "SELECT".data.isPrefixOf
        ("SELECT SECURITY".data ++ List.replicate 4990 ' ') = true ∧
    testWordRegex "SECURITY".data
        ("SELECT SECURITY".data ++ List.replicate 4990 ' ') = true ∧
    (validateQuery ("SELECT SECURITY".data ++ List.replicate 4990 ' ')
        [] [] 1000).errors = [lengthError] ∧
    kwError "SECURITY".data ∉ [lengthError] := by
  refine ⟨by decide, ?_, ?_, by decide⟩
  · unfold testWordRegex
    rw [List.any_eq_true]
    refine ⟨7, List.mem_range.mpr ?_, by decide⟩
    rw [List.length_append, List.length_replicate]
    decide
  · rw [validateQuery_length_exceeded _ [] [] 1000
      (by rw [List.length_append, List.length_replicate]; decide)]

/-- **C10 (amended).**  The deny-list contains `SECURITY` and `EXEC`: for
every SELECT statement *of length at most 5000* containing `SECURITY` or
`EXEC` as a standalone word, `validateQuery` returns `valid = false` with
an error naming that keyword. -/
theorem C10_amended (sql : JStr) (ats : List JStr)
    (mcs : List (JStr × List JStr)) (n : Nat)
    (hlen : sql.length ≤ MAX_QUERY_LENGTH)
    (hsel : "SELECT".data.isPrefixOf (jsToUpper (jsTrim sql)) = true) :
    (testWordRegex "SECURITY".data sql = true →
      kwError "SECURITY".data ∈ (validateQuery sql ats mcs n).errors ∧
      (validateQuery sql ats mcs n).valid = false) ∧
    (testWordRegex "EXEC".data sql = true →
      kwError "EXEC".data ∈ (validateQuery sql ats mcs n).errors ∧
      (validateQuery sql ats mcs n).valid = false) :=
  ⟨fun h => validateQuery_keyword_detected sql ats mcs n hlen hsel
      "SECURITY".data (by decide) h,
   fun h => validateQuery_keyword_detected sql ats mcs n hlen hsel
      "EXEC".data (by decide) h⟩

/-- Witness for C10: a table named `security` and a column named `exec`
each trip the deny-list. -/
theorem C10_witness :
    (kwError "SECURITY".data ∈
      (validateQuery "SELECT s FROM security".data ["security".data] []
        1000).errors ∧
     (validateQuery "SELECT s FROM security".data ["security".data] []
        1000).valid = false) ∧
    (kwError "EXEC".data ∈
      (validateQuery "SELECT exec FROM t".data ["t".data] [] 1000).errors ∧
     (validateQuery "SELECT exec FROM t".data ["t".data] [] 1000).valid =
        false) :=
  ⟨(C10_amended "SELECT s FROM security".data ["security".data] [] 1000
      (by decide) (by decide)).1 (by decide),
   (C10_amended "SELECT exec FROM t".data ["t".data] [] 1000
      (by decide) (by decide)).2 (by decide)⟩

/-! ## Claim C8 -/

theorem isPrefixOf_append_self (p b : JStr) : p.isPrefixOf (p ++ b) = true := by
  induction p with
  | nil => simp [List.isPrefixOf]
  | cons c t ih => simp [List.isPrefixOf, ih]

theorem substrTest_of_parts (a pat b : JStr) :
    substrTest pat (a ++ pat ++ b) = true := by
  unfold substrTest
  rw [List.any_eq_true]
  refine ⟨a.length, List.mem_range.mpr ?_, ?_⟩
  · rw [List.length_append, List.length_append]
    omega
  · rw [List.append_assoc, List.drop_left]
    exact isPrefixOf_append_self pat b

theorem exists_parts_dropWhile (p : Char → Bool) (pat : JStr) (c0 : Char)
    (hhead : pat.head? = some c0) (hc0 : p c0 = false) :
    ∀ {l : JStr}, (∃ a b, l = a ++ pat ++ b) →
      ∃ a b, l.dropWhile p = a ++ pat ++ b := by
  intro l h
  obtain ⟨a, b, rfl⟩ := h
  induction a with
  | nil =>
    cases pat with
    | nil => simp at hhead
    | cons c pt =>
      injection hhead with hc
      subst hc
      refine ⟨[], b, ?_⟩
      simp only [List.nil_append, List.cons_append, List.dropWhile_cons,
        hc0]
      simp
  | cons x a' ih =>
    by_cases hx : p x = true
    · simp only [List.cons_append, List.dropWhile_cons, hx, if_pos]
      exact ih
    · refine ⟨x :: a', b, ?_⟩
      simp only [List.cons_append, List.dropWhile_cons, hx]
      simp

theorem exists_parts_reverse {pat l : JStr} (h : ∃ a b, l = a ++ pat ++ b) :
    ∃ a b, l.reverse = a ++ pat.reverse ++ b := by
  obtain ⟨a, b, rfl⟩ := h
  exact ⟨b.reverse, a.reverse, by simp⟩

theorem exists_parts_map (f : Char → Char) {pat l : JStr}
    (h : ∃ a b, l = a ++ pat ++ b) :
    ∃ a b, l.map f = a ++ pat.map f ++ b := by
  obtain ⟨a, b, rfl⟩ := h
  exact ⟨a.map f, b.map f, by simp⟩

/-- After `enforceLimit` has appended a `LIMIT` clause, the normalized
text contains the substring `LIMIT`. -/
theorem substrTest_after_append (s digits : JStr) :
    substrTest "LIMIT".data
      (jsToUpper (jsTrim (s ++ " LIMIT ".data ++ digits))) = true := by
  have h0 : ∃ a b, s ++ " LIMIT ".data ++ digits = a ++ "LIMIT".data ++ b := by
    refine ⟨s ++ [' '], [' '] ++ digits, ?_⟩
    rw [show " LIMIT ".data = [' '] ++ "LIMIT".data ++ [' '] from by decide]
    simp
  have h1 := exists_parts_dropWhile jsIsWs "LIMIT".data 'L' rfl
    (by decide) h0
  have h2 := exists_parts_reverse h1
  have h3 := exists_parts_dropWhile jsIsWs "LIMIT".data.reverse 'T'
    (by decide) (by decide) h2
  have h4 := exists_parts_reverse h3
  rw [List.reverse_reverse] at h4
  have h5 := exists_parts_map Char.toUpper h4
  rw [show "LIMIT".data.map Char.toUpper = "LIMIT".data from by decide] at h5
  obtain ⟨a, b, heq⟩ := h5
  unfold jsTrim jsToUpper
  rw [heq]
  exact substrTest_of_parts a "LIMIT".data b

/-- **C8 (confirmed).**  `enforceLimit` is idempotent: applying it twice
yields the same string as applying it once, for every SQL string and row
cap. -/
theorem C8_idempotent (sql : JStr) (n : Nat) :
    enforceLimit (enforceLimit sql n) n = enforceLimit sql n := by
  by_cases hs : substrTest "LIMIT".data (jsToUpper (jsTrim sql)) = true
  · have h1 : enforceLimit sql n = sql := by
      unfold enforceLimit
      rw [if_neg (by simp [hs])]
    rw [h1, h1]
  · have h1 : enforceLimit sql n =
        stripTrailingSemi sql ++ " LIMIT ".data ++ (toString n).data := by
      unfold enforceLimit
      rw [if_pos (by simp [eq_false_of_ne_true hs])]
    rw [h1]
    have h2 := substrTest_after_append (stripTrailingSemi sql)
      ((toString n).data)
    unfold enforceLimit
    rw [if_neg (by rw [h2]; simp)]

/-! ## Claim C2 -/

/-- **C2 (confirmed).**  For a two-row comparison result with totals
`c` (current) and `p` (previous): the percentage change is
`(c - p)/|p| * 100`, special-cased to exactly `+100` when `p = 0 ∧ 0 < c`;
no alert is emitted when both totals are zero or when the absolute change
is below 20; otherwise one alert is emitted carrying
`currentValue = c`, `previousValue = p`, the (rounded-to-one-decimal)
change, and severity `info` on `[20,30)`, `warning` on `[30,50)`, and
`critical` at or above `50`. -/
theorem C2_heuristic (q : ComparisonQuery) (c p cc pc : ℚ)
    (rest : List ResultRow) (change : ℚ)
    (hch : change = if p ≠ 0 then (c - p) / |p| * 100
                    else if 0 < c then 100 else 0) :
    (c = 0 ∧ p = 0 →
      heuristicDetect [⟨q, ⟨c, cc⟩ :: ⟨p, pc⟩ :: rest⟩] = []) ∧
    (|change| < 20 →
      heuristicDetect [⟨q, ⟨c, cc⟩ :: ⟨p, pc⟩ :: rest⟩] = []) ∧
    (20 ≤ |change| →
      (heuristicDetect [⟨q, ⟨c, cc⟩ :: ⟨p, pc⟩ :: rest⟩]).map
          DetectedAnomaly.currentValue = [c] ∧
      (heuristicDetect [⟨q, ⟨c, cc⟩ :: ⟨p, pc⟩ :: rest⟩]).map
          DetectedAnomaly.previousValue = [p] ∧
      (heuristicDetect [⟨q, ⟨c, cc⟩ :: ⟨p, pc⟩ :: rest⟩]).map
          DetectedAnomaly.changePercent =
        [(jsRound (change * 10) : ℚ) / 10] ∧
      (|change| < 30 →
        (heuristicDetect [⟨q, ⟨c, cc⟩ :: ⟨p, pc⟩ :: rest⟩]).map
          DetectedAnomaly.severity = [.info]) ∧
      (30 ≤ |change| → |change| < 50 →
        (heuristicDetect [⟨q, ⟨c, cc⟩ :: ⟨p, pc⟩ :: rest⟩]).map
          DetectedAnomaly.severity = [.warning]) ∧
      (50 ≤ |change| →
        (heuristicDetect [⟨q, ⟨c, cc⟩ :: ⟨p, pc⟩ :: rest⟩]).map
          DetectedAnomaly.severity = [.critical])) := by
  subst hch
  refine ⟨?_, ?_, ?_⟩
  · intro hskip
    unfold heuristicDetect
    rw [List.filterMap_cons_none, List.filterMap_nil]
    dsimp only
    rw [if_pos hskip]
  · intro hlt
    unfold heuristicDetect
    rw [List.filterMap_cons_none, List.filterMap_nil]
    dsimp only
    by_cases hskip : c = 0 ∧ p = 0
    · rw [if_pos hskip]
    · rw [if_neg hskip, if_pos hlt]
  · intro h20
    have hnz : ¬(c = 0 ∧ p = 0) := by
      rintro ⟨rfl, rfl⟩
      norm_num at h20
    have hred : heuristicDetect [⟨q, ⟨c, cc⟩ :: ⟨p, pc⟩ :: rest⟩] =
        [{ severity :=
             if 50 ≤ |if p ≠ 0 then (c - p) / |p| * 100
                      else if 0 < c then 100 else 0| then .critical
             else if 30 ≤ |if p ≠ 0 then (c - p) / |p| * 100
                           else if 0 < c then 100 else 0| then .warning
             else .info
           metricName := q.tableName ++ ".".data ++ q.columnName ++
             " (".data ++
             (if substrTest "30-day".data q.description then
                "month-over-month".data
              else "week-over-week".data) ++ ")".data
           tableName := q.tableName
           columnName := q.columnName
           currentValue := c
           previousValue := p
           changePercent :=
             (jsRound ((if p ≠ 0 then (c - p) / |p| * 100
                        else if 0 < c then 100 else 0) * 10) : ℚ) / 10
           queryUsed := q.sql }] := by
      unfold heuristicDetect
      rw [List.filterMap_cons_some, List.filterMap_nil]
      dsimp only
      rw [if_neg hnz, if_neg (not_lt.mpr h20)]
    rw [hred]
    refine ⟨by simp, by simp, by simp, ?_, ?_, ?_⟩
    · intro h30
      have h50 : ¬(50 ≤ |if p ≠ 0 then (c - p) / |p| * 100
          else if 0 < c then 100 else 0|) :=
        not_le.mpr (lt_of_lt_of_le h30 (by norm_num))
      simp only [List.map_cons, List.map_nil]
      rw [if_neg h50, if_neg (not_le.mpr h30)]
    · intro h30 h50
      simp only [List.map_cons, List.map_nil]
      rw [if_neg (not_le.mpr h50), if_pos h30]
    · intro h50
      simp only [List.map_cons, List.map_nil]
      rw [if_pos h50]

/-- Witness for C2: the claim's scenario — totals 150 then 100 give a
critical alert with `currentValue = 150`, `previousValue = 100` and change
`+50`. -/
theorem C2_witness :
    (heuristicDetect [⟨⟨"w".data, "sql".data, "orders".data, "total".data⟩,
        [⟨150, 3⟩, ⟨100, 4⟩]⟩]).map DetectedAnomaly.severity =
      [.critical] ∧
    (heuristicDetect [⟨⟨"w".data, "sql".data, "orders".data, "total".data⟩,
        [⟨150, 3⟩, ⟨100, 4⟩]⟩]).map DetectedAnomaly.currentValue = [150] ∧
    (heuristicDetect [⟨⟨"w".data, "sql".data, "orders".data, "total".data⟩,
        [⟨150, 3⟩, ⟨100, 4⟩]⟩]).map DetectedAnomaly.previousValue = [100] ∧
    (heuristicDetect [⟨⟨"w".data, "sql".data, "orders".data, "total".data⟩,
        [⟨150, 3⟩, ⟨100, 4⟩]⟩]).map DetectedAnomaly.changePercent = [50] := by
  have habs : |(50 : ℚ)| = 50 := abs_of_pos (by norm_num)
  have h := C2_heuristic
    ⟨"w".data, "sql".data, "orders".data, "total".data⟩ 150 100 3 4 [] 50
    (by rw [if_pos (by norm_num : (100 : ℚ) ≠ 0),
      abs_of_pos (by norm_num : (0 : ℚ) < 100)]; norm_num)
  have h' := h.2.2 (by rw [habs]; norm_num)
  refine ⟨h'.2.2.2.2.2 (by rw [habs]), h'.1, h'.2.1, ?_⟩
  rw [h'.2.2.1]
  have hr : jsRound (50 * 10 : ℚ) = 500 := by
    unfold jsRound
    exact Int.floor_eq_iff.mpr ⟨by norm_num, by norm_num⟩
  rw [hr]
  norm_num

/-! ## Claim C9: association-list lemmas for the pool registry -/

theorem lookup_none_of_not_mem_keys {l : List (JStr × PoolEntry)} {ds : JStr}
    (h : ds ∉ l.map Prod.fst) : l.lookup ds = none := by
  induction l with
  | nil => rfl
  | cons kv l' ih =>
    obtain ⟨k, w⟩ := kv
    simp only [List.map_cons] at h
    rw [List.lookup_cons]
    have hds : ds ≠ k := by
      intro hdk
      exact h (hdk ▸ List.mem_cons_self _ _)
    rw [beq_eq_false_iff_ne.mpr hds]
    exact ih fun hm => h (List.mem_cons_of_mem _ hm)

theorem not_mem_keys_of_lookup_none {l : List (JStr × PoolEntry)} {ds : JStr}
    (h : l.lookup ds = none) : ds ∉ l.map Prod.fst := by
  induction l with
  | nil => simp
  | cons kv l' ih =>
    obtain ⟨k, w⟩ := kv
    rw [List.lookup_cons] at h
    simp only [List.map_cons]
    rcases hb : ds == k with _ | _
    · rw [hb] at h
      intro hm
      rcases List.mem_cons.mp hm with hk | hm'
      · rw [hk] at hb
        simp at hb
      · exact ih h hm'
    · rw [hb] at h
      simp at h

theorem lookup_mem {l : List (JStr × PoolEntry)} {ds : JStr} {e : PoolEntry}
    (h : l.lookup ds = some e) : (ds, e) ∈ l := by
  induction l with
  | nil => simp [List.lookup] at h
  | cons kv l' ih =>
    obtain ⟨k, w⟩ := kv
    rw [List.lookup_cons] at h
    rcases hb : ds == k with _ | _
    · rw [hb] at h
      exact List.mem_cons_of_mem _ (ih h)
    · rw [hb] at h
      injection h with h'
      rw [eq_of_beq hb, h']
      exact List.mem_cons_self _ _

theorem lookup_map_update_self {l : List (JStr × PoolEntry)} {ds : JStr}
    {e : PoolEntry} (v : PoolEntry) (h : l.lookup ds = some e) :
    (l.map fun kv => if kv.1 = ds then (kv.1, v) else kv).lookup ds =
      some v := by
  induction l with
  | nil => simp [List.lookup] at h
  | cons kv l' ih =>
    obtain ⟨k, w⟩ := kv
    rw [List.lookup_cons] at h
    rcases hb : ds == k with _ | _
    · rw [hb] at h
      have hk : ¬(k = ds) := fun hkds => by simp [hkds] at hb
      simp only [List.map_cons, if_neg hk]
      rw [List.lookup_cons, hb]
      exact ih h
    · have hk : k = ds := (eq_of_beq hb).symm
      simp only [List.map_cons, if_pos hk]
      rw [List.lookup_cons, hb]

theorem lookup_map_update_other {l : List (JStr × PoolEntry)}
    {ds ds' : JStr} (v : PoolEntry) (hne : ds ≠ ds') :
    (l.map fun kv => if kv.1 = ds' then (kv.1, v) else kv).lookup ds =
      l.lookup ds := by
  induction l with
  | nil => rfl
  | cons kv l' ih =>
    obtain ⟨k, w⟩ := kv
    by_cases hk : k = ds'
    · simp only [List.map_cons, if_pos hk]
      rw [List.lookup_cons, List.lookup_cons]
      have hb : (ds == k) = false := by
        rcases hb : ds == k with _ | _
        · rfl
        · exact absurd (eq_of_beq hb) (hk ▸ hne)
      rw [hb, ih]
    · simp only [List.map_cons, if_neg hk]
      rw [List.lookup_cons, List.lookup_cons]
      rcases hb : ds == k with _ | _
      · exact ih
      · rfl

theorem keys_map_update (l : List (JStr × PoolEntry)) (ds : JStr)
    (v : PoolEntry) :
    (l.map fun kv => if kv.1 = ds then (kv.1, v) else kv).map Prod.fst =
      l.map Prod.fst := by
  induction l with
  | nil => rfl
  | cons kv l' ih =>
    obtain ⟨k, w⟩ := kv
    by_cases hk : k = ds <;> simp [hk, ih]

theorem lookup_filter_pass {l : List (JStr × PoolEntry)} {ds : JStr}
    {e : PoolEntry} {pred : JStr × PoolEntry → Bool}
    (h : l.lookup ds = some e) (hp : pred (ds, e) = true) :
    (l.filter pred).lookup ds = some e := by
  induction l with
  | nil => simp [List.lookup] at h
  | cons kv l' ih =>
    obtain ⟨k, w⟩ := kv
    rw [List.lookup_cons] at h
    rcases hb : ds == k with _ | _
    · rw [hb] at h
      rw [List.filter_cons]
      split
      · rw [List.lookup_cons, hb]
        exact ih h
      · exact ih h
    · rw [hb] at h
      injection h with h'
      have hk : k = ds := (eq_of_beq hb).symm
      subst hk
      subst h'
      rw [List.filter_cons, if_pos hp]
      rw [List.lookup_cons, hb]

theorem lookup_filter_drop {l : List (JStr × PoolEntry)} {ds : JStr}
    {e : PoolEntry} {pred : JStr × PoolEntry → Bool}
    (hnd : (l.map Prod.fst).Nodup)
    (h : l.lookup ds = some e) (hp : pred (ds, e) = false) :
    (l.filter pred).lookup ds = none := by
  induction l with
  | nil => simp [List.lookup] at h
  | cons kv l' ih =>
    obtain ⟨k, w⟩ := kv
    rw [List.lookup_cons] at h
    have hnd' : (l'.map Prod.fst).Nodup := (List.nodup_cons.mp hnd).2
    rcases hb : ds == k with _ | _
    · rw [hb] at h
      rw [List.filter_cons]
      split
      · rw [List.lookup_cons, hb]
        exact ih hnd' h
      · exact ih hnd' h
    · rw [hb] at h
      injection h with h'
      have hk : k = ds := (eq_of_beq hb).symm
      subst hk
      subst h'
      rw [List.filter_cons, if_neg (by simp [hp])]
      apply lookup_none_of_not_mem_keys
      intro hm
      have hsub : ((l'.filter pred).map Prod.fst).Sublist
          (l'.map Prod.fst) := (List.filter_sublist l').map Prod.fst
      exact (List.nodup_cons.mp hnd).1 (hsub.mem hm)

theorem lookup_none_filter {l : List (JStr × PoolEntry)} {ds : JStr}
    {pred : JStr × PoolEntry → Bool} (h : l.lookup ds = none) :
    (l.filter pred).lookup ds = none := by
  apply lookup_none_of_not_mem_keys
  intro hm
  have hsub : ((l.filter pred).map Prod.fst).Sublist (l.map Prod.fst) :=
    (List.filter_sublist l).map Prod.fst
  exact not_mem_keys_of_lookup_none h (hsub.mem hm)

theorem getOrCreatePool_some {c : PoolCache} {ds : JStr} {e : PoolEntry}
    (now : Nat) (h : c.entries.lookup ds = some e) :
    getOrCreatePool c ds now =
      ({ c with
          entries := c.entries.map fun kv =>
            if kv.1 = ds then (kv.1, ⟨e.pid, now⟩) else kv },
       e.pid) := by
  unfold getOrCreatePool
  rw [h]

theorem getOrCreatePool_none {c : PoolCache} {ds : JStr} (now : Nat)
    (h : c.entries.lookup ds = none) :
    getOrCreatePool c ds now =
      ({ entries := (ds, ⟨c.nextPid, now⟩) :: c.entries,
         nextPid := c.nextPid + 1 },
       c.nextPid) := by
  unfold getOrCreatePool
  rw [h]

theorem poolStep_call (c : PoolCache) (ds : JStr) (t : Nat) :
    poolStep c (.call ds t) = (getOrCreatePool c ds t).1 := rfl

theorem poolStep_sweep (c : PoolCache) (t : Nat) :
    poolStep c (.sweep t) = sweepPools c t := rfl

theorem runPool_cons (c : PoolCache) (s : PoolStep) (steps : List PoolStep) :
    runPool c (s :: steps) = runPool (poolStep c s) steps := rfl

/-- Every step of the lifecycle whose time lies in `[t1, t2]`, with
`t2 - t1 ≤ TTL`, preserves the presence of the cached pool `p1` for `ds`
(its `lastUsed` staying within `[t1, t2]`). -/
theorem runPool_preserves_entry (ds : JStr) (p1 t1 t2 : Nat) :
    ∀ (steps : List PoolStep) (c : PoolCache),
      (∀ s ∈ steps, t1 ≤ s.time ∧ s.time ≤ t2) →
      t2 - t1 ≤ POOL_TTL_MS →
      (∃ lu, t1 ≤ lu ∧ lu ≤ t2 ∧ c.entries.lookup ds = some ⟨p1, lu⟩) →
      ∃ lu, t1 ≤ lu ∧ lu ≤ t2 ∧
        (runPool c steps).entries.lookup ds = some ⟨p1, lu⟩ := by
  intro steps
  induction steps with
  | nil => exact fun c _ _ h => h
  | cons s steps' ih =>
    rintro c hts httl ⟨lu, hlu1, hlu2, hlk⟩
    have hs := hts s (List.mem_cons_self _ _)
    have hts' : ∀ s' ∈ steps', t1 ≤ s'.time ∧ s'.time ≤ t2 :=
      fun s' hs' => hts s' (List.mem_cons_of_mem _ hs')
    rw [runPool_cons]
    apply ih _ hts' httl
    cases s with
    | call ds' t =>
      rw [poolStep_call]
      by_cases hds : ds' = ds
      · subst hds
        rw [getOrCreatePool_some t hlk]
        refine ⟨t, hs.1, hs.2, ?_⟩
        dsimp only
        exact lookup_map_update_self _ hlk
      · cases hlk' : c.entries.lookup ds' with
        | some e =>
          rw [getOrCreatePool_some t hlk']
          refine ⟨lu, hlu1, hlu2, ?_⟩
          dsimp only
          rw [lookup_map_update_other _ fun hdd => hds hdd.symm]
          exact hlk
        | none =>
          rw [getOrCreatePool_none t hlk']
          refine ⟨lu, hlu1, hlu2, ?_⟩
          dsimp only
          rw [List.lookup_cons,
            beq_eq_false_iff_ne.mpr fun hdd => hds hdd.symm]
          exact hlk
    | sweep t =>
      rw [poolStep_sweep]
      refine ⟨lu, hlu1, hlu2, ?_⟩
      unfold sweepPools
      apply lookup_filter_pass hlk
      have h1 := hs.1
      have h2 := hs.2
      simp only [PoolStep.time] at h1 h2
      have hnot : ¬(t - lu > POOL_TTL_MS) := by omega
      simp [hnot]

/-- With no guarded-query call for `ds` among the steps, the cached entry
for `ds` either keeps `lastUsed = t1` and pool `p1` or disappears; keys
stay nodup and the pool-id allocator never goes backwards. -/
theorem runPool_no_use (ds : JStr) (p1 t1 N : Nat) :
    ∀ (steps : List PoolStep) (c : PoolCache),
      (∀ s ∈ steps, ∀ t, s ≠ .call ds t) →
      ((c.entries.map Prod.fst).Nodup ∧ N ≤ c.nextPid ∧
        (c.entries.lookup ds = some ⟨p1, t1⟩ ∨ c.entries.lookup ds = none)) →
      ((runPool c steps).entries.map Prod.fst).Nodup ∧
        N ≤ (runPool c steps).nextPid ∧
        ((runPool c steps).entries.lookup ds = some ⟨p1, t1⟩ ∨
          (runPool c steps).entries.lookup ds = none) := by
  intro steps
  induction steps with
  | nil => exact fun c _ h => h
  | cons s steps' ih =>
    rintro c hno ⟨hnd, hN, hlk⟩
    have hno' : ∀ s' ∈ steps', ∀ t, s' ≠ .call ds t :=
      fun s' hs' => hno s' (List.mem_cons_of_mem _ hs')
    rw [runPool_cons]
    apply ih _ hno'
    cases s with
    | call ds' t =>
      have hds : ds' ≠ ds := fun hdd =>
        hno _ (List.mem_cons_self _ _) t (by rw [hdd])
      rw [poolStep_call]
      cases hlk' : c.entries.lookup ds' with
      | some e =>
        rw [getOrCreatePool_some t hlk']
        dsimp only
        rw [keys_map_update,
          lookup_map_update_other _ fun hdd => hds hdd.symm]
        exact ⟨hnd, hN, hlk⟩
      | none =>
        rw [getOrCreatePool_none t hlk']
        dsimp only
        refine ⟨?_, by omega, ?_⟩
        · rw [List.map_cons]
          exact List.nodup_cons.mpr
            ⟨not_mem_keys_of_lookup_none hlk', hnd⟩
        · rw [List.lookup_cons,
            beq_eq_false_iff_ne.mpr fun hdd => hds hdd.symm]
          exact hlk
    | sweep t =>
      rw [poolStep_sweep]
      unfold sweepPools
      refine ⟨((List.filter_sublist _).map Prod.fst).nodup hnd, hN, ?_⟩
      rcases hlk with hsome | hnone
      · by_cases hgt : t - t1 > POOL_TTL_MS
        · refine Or.inr (lookup_filter_drop hnd hsome ?_)
          simp [hgt]
        · refine Or.inl (lookup_filter_pass hsome ?_)
          simp [hgt]
      · exact Or.inr (lookup_none_filter hnone)

/-- **C9 (amended).**  In the pool registry's lifecycle (guarded-query
calls and sweep ticks as timestamped steps):
(1) two guarded-query calls against the same database id separated by
less than the idle TTL (5 minutes) use the same underlying pool instance,
whatever steps happen in between; and
(2) after a sweep tick that occurs more than the TTL after the last use
of a database id (with no intervening use), the next guarded-query call
for it obtains a newly created pool instance.  (A call merely issued
after the TTL has elapsed, before such a sweep tick, still reuses the old
pool — see the counterexample.) -/
theorem C9_amended :
    (∀ (c0 : PoolCache) (ds : JStr) (t1 t2 : Nat) (steps : List PoolStep),
      t1 ≤ t2 → t2 - t1 < POOL_TTL_MS →
      (∀ s ∈ steps, t1 ≤ s.time ∧ s.time ≤ t2) →
      (getOrCreatePool (runPool (getOrCreatePool c0 ds t1).1 steps) ds
        t2).2 = (getOrCreatePool c0 ds t1).2) ∧
    (∀ (c0 : PoolCache) (ds : JStr) (t1 ts t2 : Nat)
        (steps : List PoolStep),
      (∀ kv ∈ c0.entries, kv.2.pid < c0.nextPid) →
      (c0.entries.map Prod.fst).Nodup →
      (∀ s ∈ steps, ∀ t, s ≠ .call ds t) →
      POOL_TTL_MS < ts - t1 →
      (getOrCreatePool (sweepPools
          (runPool (getOrCreatePool c0 ds t1).1 steps) ts) ds t2).2 ≠
        (getOrCreatePool c0 ds t1).2) := by
  constructor
  · intro c0 ds t1 t2 steps h12 hsep hts
    have hinit : ∃ lu, t1 ≤ lu ∧ lu ≤ t2 ∧
        (getOrCreatePool c0 ds t1).1.entries.lookup ds =
          some ⟨(getOrCreatePool c0 ds t1).2, lu⟩ := by
      refine ⟨t1, le_refl _, h12, ?_⟩
      cases hlk : c0.entries.lookup ds with
      | some e =>
        rw [getOrCreatePool_some t1 hlk]
        dsimp only
        exact lookup_map_update_self _ hlk
      | none =>
        rw [getOrCreatePool_none t1 hlk]
        dsimp only
        rw [List.lookup_cons, beq_self_eq_true]
    obtain ⟨lu, _, _, hlk⟩ := runPool_preserves_entry ds
      (getOrCreatePool c0 ds t1).2 t1 t2 steps _ hts (le_of_lt hsep) hinit
    rw [getOrCreatePool_some t2 hlk]
  · intro c0 ds t1 ts t2 steps hwf hnd hno hts
    have hinit :
        ((getOrCreatePool c0 ds t1).1.entries.map Prod.fst).Nodup ∧
        (getOrCreatePool c0 ds t1).2 + 1 ≤
          (getOrCreatePool c0 ds t1).1.nextPid ∧
        ((getOrCreatePool c0 ds t1).1.entries.lookup ds =
            some ⟨(getOrCreatePool c0 ds t1).2, t1⟩ ∨
          (getOrCreatePool c0 ds t1).1.entries.lookup ds = none) := by
      cases hlk : c0.entries.lookup ds with
      | some e =>
        rw [getOrCreatePool_some t1 hlk]
        dsimp only
        refine ⟨by rw [keys_map_update]; exact hnd,
          hwf (ds, e) (lookup_mem hlk),
          Or.inl (lookup_map_update_self _ hlk)⟩
      | none =>
        rw [getOrCreatePool_none t1 hlk]
        dsimp only
        refine ⟨?_, by omega,
          Or.inl (by rw [List.lookup_cons, beq_self_eq_true])⟩
        rw [List.map_cons]
        exact List.nodup_cons.mpr
          ⟨not_mem_keys_of_lookup_none hlk, hnd⟩
    obtain ⟨hnd2, hN2, hlk2⟩ := runPool_no_use ds
      (getOrCreatePool c0 ds t1).2 t1 ((getOrCreatePool c0 ds t1).2 + 1)
      steps _ hno hinit
    have hgone : (sweepPools (runPool (getOrCreatePool c0 ds t1).1 steps)
        ts).entries.lookup ds = none := by
      unfold sweepPools
      rcases hlk2 with hsome | hnone
      · refine lookup_filter_drop hnd2 hsome ?_
        simp [show ts - t1 > POOL_TTL_MS from hts]
      · exact lookup_none_filter hnone
    intro heq
    rw [getOrCreatePool_none t2 hgone] at heq
    dsimp only at heq
    have hsw : (sweepPools (runPool (getOrCreatePool c0 ds t1).1 steps)
        ts).nextPid = (runPool (getOrCreatePool c0 ds t1).1 steps).nextPid :=
      rfl
    rw [hsw] at heq
    omega

/-- **C9 (counterexample).**  A guarded-query call issued *after* the TTL
has elapsed but *before* the next sweep tick reuses the stale pool: with a
call at t=0, a (no-op) sweep at t=299000, and a second call at t=300500
(more than the 300000 ms TTL after the last use, with no intervening use),
the same pool instance is returned, not a new one. -/
theorem C9_counterexample :
    POOL_TTL_MS < 300500 - 0 ∧
    (getOrCreatePool (runPool (getOrCreatePool ⟨[], 0⟩ "a".data 0).1
        [.sweep 299000]) "a".data 300500).2 =
      (getOrCreatePool (⟨[], 0⟩ : PoolCache) "a".data 0).2 := by
  refine ⟨by decide, by decide⟩

/-- Witness for C9: reuse within the TTL across a sweep tick, and a fresh
pool after an over-TTL sweep tick. -/
theorem C9_witness :
    (getOrCreatePool (runPool (getOrCreatePool ⟨[], 0⟩ "a".data 0).1
        [.sweep 100000]) "a".data 200000).2 =
      (getOrCreatePool (⟨[], 0⟩ : PoolCache) "a".data 0).2 ∧
    (getOrCreatePool (sweepPools (runPool
        (getOrCreatePool ⟨[], 0⟩ "a".data 0).1 []) 300001) "a".data
        300002).2 ≠
      (getOrCreatePool (⟨[], 0⟩ : PoolCache) "a".data 0).2 :=
  ⟨C9_amended.1 ⟨[], 0⟩ "a".data 0 200000 [.sweep 100000] (by omega)
      (by decide)
      (by
        intro s hs
        simp only [List.mem_singleton] at hs
        subst hs
        exact ⟨by omega, by decide⟩),
   C9_amended.2 ⟨[], 0⟩ "a".data 0 300001 300002 [] (by simp) (by simp)
      (by simp) (by decide)⟩

end TamboLens
